import Mathlib

set_option autoImplicit false

namespace MealManagement

/-!
Shallow embedding of the meal-management core (src/core/models.py and
src/core/services.py).

Representation conventions:
* every monetary amount (a 2-decimal `Decimal` field) is an integer number
  of cents;
* every meal-unit quantity (`breakfast_weight`, `extra_meals`, unit totals —
  also 2-decimal `Decimal`s) is an integer number of hundredths of a unit,
  so one lunch or dinner contributes 100;
* a calendar date is its proleptic-Gregorian ordinal (as Python
  `date.toordinal`), an `Int`; Python `date` comparison and subtraction
  agree with ordinal comparison and subtraction;
* quantizing to two decimal places under the default context rounding
  (ROUND_HALF_EVEN) becomes `roundHalfEven` after exact rational division;
  quantizing a value that is already an exact multiple of 0.01 is the
  identity, so sums and differences of cent amounts need no rounding step.
-/

/-- A member of a mess (models.Member): id, display name, active flag. -/
structure Member where
  id : Nat
  name : String
  is_active : Bool
deriving Repr, DecidableEq

/-- A meal record (models.Meal): which meals a member had on a date,
plus fractional extra meals in hundredths of a unit. -/
structure Meal where
  member_id : Nat
  date : Int
  had_breakfast : Bool
  had_lunch : Bool
  had_dinner : Bool
  extra_meals : Int
deriving Repr, DecidableEq

/-- An expense record (models.Expense): date and amount in cents. -/
structure Expense where
  date : Int
  amount : Int
deriving Repr, DecidableEq

/-- A deposit record (models.Deposit): depositing member, date, amount in cents. -/
structure Deposit where
  member_id : Nat
  date : Int
  amount : Int
deriving Repr, DecidableEq

/-- A meal-manager assignment (models.MealManagerAssignment): the managing
user, the optionally linked member's name, the raw username, and the
inclusive date range. -/
structure MealManagerAssignment where
  mess_id : Nat
  manager_user_id : Nat
  manager_member_name : Option String
  manager_username : String
  start_date : Int
  end_date : Int
deriving Repr, DecidableEq

/-- models.MealManagerAssignment.total_days: `(end_date - start_date).days + 1`. -/
def MealManagerAssignment.total_days (a : MealManagerAssignment) : Int :=
  a.end_date - a.start_date + 1

/-- A mess (models.Mess) together with its related record sets, as the
queries in services.py see them. -/
structure Mess where
  include_breakfast : Bool
  breakfast_weight : Int
  members : List Member
  meals : List Meal
  expenses : List Expense
  deposits : List Deposit
  manager_assignments : List MealManagerAssignment
deriving Repr, DecidableEq

/-- Gregorian leap-year rule used by calendar.monthrange. -/
def isLeapYear (y : Nat) : Bool :=
  (y % 4 == 0 && y % 100 != 0) || y % 400 == 0

/-- Number of days in a month (second component of calendar.monthrange). -/
def monthLength (y m : Nat) : Nat :=
  if m = 2 then (if isLeapYear y then 29 else 28)
  else if m = 4 ∨ m = 6 ∨ m = 9 ∨ m = 11 then 30
  else 31

/-- Days in year `y` strictly before month `m`. -/
def daysBeforeMonth (y m : Nat) : Nat :=
  (List.range (m - 1)).foldl (fun acc i => acc + monthLength y (i + 1)) 0

/-- Proleptic-Gregorian ordinal of a calendar date, as Python
`date.toordinal` (0001-01-01 is day 1). -/
def toOrdinal (y m d : Nat) : Int :=
  ((365 * (y - 1) + (y - 1) / 4 + (y - 1) / 400 - (y - 1) / 100
    + daysBeforeMonth y m + d : Nat) : Int)

/-- services.get_month_date_range: first and last day of the month. -/
def get_month_date_range (year month : Nat) : Int × Int :=
  (toOrdinal year month 1, toOrdinal year month (monthLength year month))

/-- Round the exact quotient `a / b` (for `b > 0`) to the nearest integer,
ties going to the even neighbour: the rounding `Decimal.quantize` applies
under the default context rounding ROUND_HALF_EVEN. `f` is the floor of the
quotient and `r = a - f * b ∈ [0, b)` its remainder, so the fractional part
`r / b` compares with `1 / 2` exactly as `2 * r` compares with `b`. -/
def roundHalfEvenDiv (a b : Int) : Int :=
  let f := Int.fdiv a b
  let r := a - f * b
  if 2 * r < b then f
  else if b < 2 * r then f + 1
  else if f % 2 = 0 then f else f + 1

/-- The `date__range=(start_date, end_date)` filter: inclusive at both ends. -/
def inRange (sd ed d : Int) : Bool :=
  decide (sd ≤ d) && decide (d ≤ ed)

/-- The per-record meal-unit total of the loop body in calculate_dashboard,
given a breakfast weight already forced to 0 when breakfast is excluded. -/
def mealUnits (bw : Int) (ml : Meal) : Int :=
  (if ml.had_breakfast then bw else 0) + (if ml.had_lunch then 100 else 0) +
    (if ml.had_dinner then 100 else 0) + ml.extra_meals

/-- Sum of in-range expense amounts (the `total_expense` aggregate). -/
def totalExpense (mess : Mess) (sd ed : Int) : Int :=
  ((mess.expenses.filter fun e => inRange sd ed e.date).map Expense.amount).sum

/-- Sum of in-range deposit amounts over all members (the `total_collected`
aggregate). -/
def totalCollected (mess : Mess) (sd ed : Int) : Int :=
  ((mess.deposits.filter fun dp => inRange sd ed dp.date).map Deposit.amount).sum

/-- The `members_qs` queryset: active members only. -/
def activeMembers (mess : Mess) : List Member :=
  mess.members.filter Member.is_active

/-- Python: breakfast_weight if include_breakfast is set, else 0. -/
def breakfastWeightUsed (mess : Mess) : Int :=
  if mess.include_breakfast then mess.breakfast_weight else 0

/-- The `meal_entries` queryset: in-range meal records whose member is in
`members_qs`. -/
def mealEntries (mess : Mess) (sd ed : Int) : List Meal :=
  mess.meals.filter fun ml =>
    inRange sd ed ml.date && (activeMembers mess).any fun mb => mb.id == ml.member_id

/-- One iteration of the meal loop: bump the member's tally and the grand
total by the record's meal units. -/
def mealsStep (bw : Int) (acc : (Nat → Int) × Int) (ml : Meal) : (Nat → Int) × Int :=
  (Function.update acc.1 ml.member_id (acc.1 ml.member_id + mealUnits bw ml),
   acc.2 + mealUnits bw ml)

/-- The meal loop: `meals_per_member` (a total function, 0 by default, like
the defaultdict read back with `.get(_, 0)`) and `total_meals_all`. -/
def mealsFold (bw : Int) (l : List Meal) : (Nat → Int) × Int :=
  l.foldl (mealsStep bw) (fun _ => 0, 0)

/-- The meal-rate computation: 0 unless `total_meals_all > 0`, otherwise the
quotient quantized to a cent. Arguments are cents and hundredths of a unit,
result is cents per unit. -/
def mealRate (total_expense total_meals_all : Int) : Int :=
  if 0 < total_meals_all then
    roundHalfEvenDiv (100 * total_expense) total_meals_all
  else 0

/-- A member's in-range deposits summed (the grouped deposit aggregate read
back with `.get(member.id, 0)`). -/
def depositsFor (mess : Mess) (sd ed : Int) (mid : Nat) : Int :=
  ((mess.deposits.filter fun dp => inRange sd ed dp.date && dp.member_id == mid).map
    Deposit.amount).sum

/-- One row of the dashboard's `members` list. -/
structure MemberRow where
  id : Nat
  name : String
  meals : Int
  meal_cost : Int
  deposited : Int
  net : Int
  status : String
deriving Repr, DecidableEq

/-- The member-row construction of calculate_dashboard. `meals` is in
hundredths of a unit; `meal_cost`, `deposited` and `net` are cents. -/
def memberRow (mess : Mess) (sd ed : Int) (meals_per_member : Nat → Int) (meal_rate : Int)
    (member : Member) : MemberRow :=
  let total_meals := meals_per_member member.id
  let meal_cost := roundHalfEvenDiv (total_meals * meal_rate) 100
  let deposited := depositsFor mess sd ed member.id
  let net := deposited - meal_cost
  { id := member.id
    name := member.name
    meals := total_meals
    meal_cost := meal_cost
    deposited := deposited
    net := net
    status := if net < 0 then "due" else if 0 < net then "advance" else "settled" }

/-- One entry of the dashboard's `manager_stats` list. -/
structure ManagerStat where
  name : String
  total_days : Int
  assignment_count : Nat
  last_start : Int
  last_end : Int
deriving Repr, DecidableEq

/-- Python: manager_member.name when a member is linked, else the raw
manager_user.username. -/
def displayName (a : MealManagerAssignment) : String :=
  match a.manager_member_name with
  | some n => n
  | none => a.manager_username

/-- The `setdefault` default for a user's accumulator. -/
def initStat (a : MealManagerAssignment) : ManagerStat :=
  { name := displayName a, total_days := 0, assignment_count := 0,
    last_start := a.start_date, last_end := a.end_date }

/-- Folding one assignment into its user's accumulator: add its total days,
count it, and replace the last period only on a strictly later start (the
`+=` updates leave `last_start` untouched, so the comparison reads the
stored value). -/
def updStat (s : ManagerStat) (a : MealManagerAssignment) : ManagerStat :=
  if s.last_start < a.start_date then
    { s with total_days := s.total_days + a.total_days,
             assignment_count := s.assignment_count + 1,
             last_start := a.start_date, last_end := a.end_date }
  else
    { s with total_days := s.total_days + a.total_days,
             assignment_count := s.assignment_count + 1 }

/-- Apply `f` to the value stored at key `k` of an association list
(the mutation of the dict entry `manager_data[user_id]`). -/
def applyAt (k : Nat) (f : ManagerStat → ManagerStat) :
    List (Nat × ManagerStat) → List (Nat × ManagerStat)
  | [] => []
  | (k', v) :: rest => if k' = k then (k', f v) :: rest else (k', v) :: applyAt k f rest

/-- One iteration of the assignment loop over the insertion-ordered dict. -/
def mgrStep (acc : List (Nat × ManagerStat)) (a : MealManagerAssignment) :
    List (Nat × ManagerStat) :=
  if acc.any fun p => p.1 == a.manager_user_id then
    applyAt a.manager_user_id (fun s => updStat s a) acc
  else
    acc ++ [(a.manager_user_id, updStat (initStat a) a)]

/-- The manager-statistics computation: fold every assignment into the dict
and read the rows back in first-encounter order. -/
def managerStats (assignments : List MealManagerAssignment) : List ManagerStat :=
  (assignments.foldl mgrStep []).map Prod.snd

/-- The dashboard's `summary` dict. -/
structure Summary where
  year : Nat
  month : Nat
  total_meals : Int
  total_expense : Int
  total_collected : Int
  meal_rate : Int
  mess_balance : Int
  active_members : Nat
  include_breakfast : Bool
  breakfast_weight : Int
deriving Repr, DecidableEq

/-- The full dashboard result. -/
structure Dashboard where
  summary : Summary
  members : List MemberRow
  manager_stats : List ManagerStat
deriving Repr, DecidableEq

/-- The `start_date` of the dashboard period. -/
def monthStart (year month : Nat) : Int :=
  (get_month_date_range year month).1

/-- The `end_date` of the dashboard period. -/
def monthEnd (year month : Nat) : Int :=
  (get_month_date_range year month).2

/-- The `meals_per_member` mapping produced by the meal loop. -/
def mealsPerMember (mess : Mess) (year month : Nat) : Nat → Int :=
  (mealsFold (breakfastWeightUsed mess)
    (mealEntries mess (monthStart year month) (monthEnd year month))).1

/-- The `total_meals_all` accumulator produced by the meal loop. -/
def totalMealsAll (mess : Mess) (year month : Nat) : Int :=
  (mealsFold (breakfastWeightUsed mess)
    (mealEntries mess (monthStart year month) (monthEnd year month))).2

/-- The dashboard's `meal_rate`. -/
def messMealRate (mess : Mess) (year month : Nat) : Int :=
  mealRate (totalExpense mess (monthStart year month) (monthEnd year month))
    (totalMealsAll mess year month)

/-- The dashboard's `members` list: one row per active member. -/
def memberRows (mess : Mess) (year month : Nat) : List MemberRow :=
  (activeMembers mess).map
    (memberRow mess (monthStart year month) (monthEnd year month)
      (mealsPerMember mess year month) (messMealRate mess year month))

/-- services.calculate_dashboard. -/
def calculate_dashboard (mess : Mess) (year month : Nat) : Dashboard :=
  { summary :=
      { year := year
        month := month
        total_meals := totalMealsAll mess year month
        total_expense := totalExpense mess (monthStart year month) (monthEnd year month)
        total_collected := totalCollected mess (monthStart year month) (monthEnd year month)
        meal_rate := messMealRate mess year month
        mess_balance := totalCollected mess (monthStart year month) (monthEnd year month)
          - totalExpense mess (monthStart year month) (monthEnd year month)
        active_members := (activeMembers mess).length
        include_breakfast := mess.include_breakfast
        breakfast_weight := breakfastWeightUsed mess }
    members := memberRows mess year month
    manager_stats := managerStats mess.manager_assignments }

/-- services.is_meal_manager_for_date: exists-style query over the global
assignment table filtered by mess, user and an inclusive date interval. -/
def is_meal_manager_for_date (assignments : List MealManagerAssignment)
    (user_id mess_id : Nat) (target_date : Int) : Bool :=
  assignments.any fun a =>
    a.mess_id == mess_id && a.manager_user_id == user_id &&
      decide (a.start_date ≤ target_date) && decide (target_date ≤ a.end_date)

/-- Value stored at key `u` of the insertion-ordered association list that
models the `manager_data` dict. -/
def findStat (u : Nat) : List (Nat × ManagerStat) → Option ManagerStat
  | [] => none
  | (k, v) :: rest => if k = u then some v else findStat u rest

/-- Modelled from the spec (§4.2 step 9 with the §9 tie-break note): track
the most recent assignment's start/end by latest `start_date`, replacing the
stored period only when a strictly greater `start_date` is seen. Used to
compare the manager-statistics fold against the spec's wording. -/
def lastPeriodSpec (p : Int × Int) : List MealManagerAssignment → Int × Int
  | [] => p
  | a :: rest =>
    lastPeriodSpec (if p.1 < a.start_date then (a.start_date, a.end_date) else p) rest

/-! ### Concrete fixtures

Small mess instances used to evaluate the code on the concrete inputs the
claims mention. Dates are ordinals built with `toOrdinal`, amounts cents,
meal quantities hundredths of a unit. -/

/-- The §8 example household: include_breakfast, weight 0.50, one active
member with one breakfast+lunch record, a single expense of 100.00, and no
other records. -/
def c1mess : Mess :=
  { include_breakfast := true
    breakfast_weight := 50
    members := [⟨1, "alice", true⟩]
    meals := [⟨1, toOrdinal 2024 1 10, true, true, false, 0⟩]
    expenses := [⟨toOrdinal 2024 1 5, 10000⟩]
    deposits := []
    manager_assignments := [] }

/-- The §8 example household with one deposit of `dep` cents by the member. -/
def c1messWith (dep : Int) : Mess :=
  { include_breakfast := true
    breakfast_weight := 50
    members := [⟨1, "alice", true⟩]
    meals := [⟨1, toOrdinal 2024 1 10, true, true, false, 0⟩]
    expenses := [⟨toOrdinal 2024 1 5, 10000⟩]
    deposits := [⟨1, toOrdinal 2024 1 15, dep⟩]
    manager_assignments := [] }

/-- Fixture for the member-row claim: one active member, 1.5 meal units,
an expense of 100.00 and a deposit of 25.00. -/
def c3mess : Mess :=
  { include_breakfast := true
    breakfast_weight := 50
    members := [⟨1, "alice", true⟩]
    meals := [⟨1, toOrdinal 2024 1 10, true, true, false, 0⟩]
    expenses := [⟨toOrdinal 2024 1 5, 10000⟩]
    deposits := [⟨1, toOrdinal 2024 1 15, 2500⟩]
    manager_assignments := [] }

/-- The member row `calculate_dashboard` produces for `c3mess`. -/
def c3row : MemberRow :=
  ⟨1, "alice", 150, 10000, 2500, -7500, "due"⟩

/-- Fixture for the meal-rate claim: nonzero meal units and an expense. -/
def c4mess : Mess :=
  { include_breakfast := true
    breakfast_weight := 50
    members := [⟨1, "alice", true⟩, ⟨2, "bob", true⟩]
    meals := [⟨1, toOrdinal 2024 1 10, true, true, false, 0⟩,
              ⟨2, toOrdinal 2024 1 10, false, true, true, 25⟩]
    expenses := [⟨toOrdinal 2024 1 5, 10000⟩]
    deposits := []
    manager_assignments := [] }

/-- Divergence fixture: three members with one lunch each and a 100.00
expense, so each allocated cost is 33.33 and the member nets sum to -99.99
while the cash balance is -100.00. -/
def c5mess : Mess :=
  { include_breakfast := true
    breakfast_weight := 50
    members := [⟨1, "alice", true⟩, ⟨2, "bob", true⟩, ⟨3, "carol", true⟩]
    meals := [⟨1, toOrdinal 2024 1 10, false, true, false, 0⟩,
              ⟨2, toOrdinal 2024 1 10, false, true, false, 0⟩,
              ⟨3, toOrdinal 2024 1 10, false, true, false, 0⟩]
    expenses := [⟨toOrdinal 2024 1 5, 10000⟩]
    deposits := []
    manager_assignments := [] }

/-- A mess with the same expenses and deposits as `c5mess` but different
members, meals and breakfast settings. -/
def c5messAlt : Mess :=
  { include_breakfast := false
    breakfast_weight := 75
    members := [⟨9, "zoe", true⟩]
    meals := [⟨9, toOrdinal 2024 1 12, true, false, true, 50⟩]
    expenses := [⟨toOrdinal 2024 1 5, 10000⟩]
    deposits := []
    manager_assignments := [] }

/-- First-encountered assignment of user 5 in the manager-stats fixture. -/
def c6a0 : MealManagerAssignment :=
  ⟨1, 5, some "alice", "alice5", toOrdinal 2024 1 8, toOrdinal 2024 1 14⟩

/-- Later-encountered assignments of user 5 in the manager-stats fixture. -/
def c6rest : List MealManagerAssignment :=
  [⟨1, 5, some "alice", "alice5", toOrdinal 2024 1 1, toOrdinal 2024 1 7⟩]

/-- Fixture for the manager-statistics claim: user 5 has two assignments
(the later-starting one encountered first), user 6 has one in between. -/
def c6mess : Mess :=
  { include_breakfast := true
    breakfast_weight := 50
    members := [⟨1, "alice", true⟩]
    meals := []
    expenses := []
    deposits := []
    manager_assignments :=
      [c6a0,
       ⟨1, 6, none, "bob6", toOrdinal 2024 1 1, toOrdinal 2024 1 7⟩,
       ⟨1, 5, some "alice", "alice5", toOrdinal 2024 1 1, toOrdinal 2024 1 7⟩] }

/-- First-encountered assignment of user 7: no linked member. -/
def c7a0 : MealManagerAssignment :=
  ⟨1, 7, none, "bob", toOrdinal 2024 1 8, toOrdinal 2024 1 14⟩

/-- Later-encountered assignments of user 7: one linking member "Alice". -/
def c7rest : List MealManagerAssignment :=
  [⟨1, 7, some "Alice", "bob", toOrdinal 2024 1 1, toOrdinal 2024 1 7⟩]

/-- Fixture refuting the display-name claim: user 7's first-encountered
assignment has no linked member, a later-encountered one links member
"Alice". -/
def c7mess : Mess :=
  { include_breakfast := true
    breakfast_weight := 50
    members := []
    meals := []
    expenses := []
    deposits := []
    manager_assignments :=
      [c7a0,
       ⟨1, 7, some "Alice", "bob", toOrdinal 2024 1 1, toOrdinal 2024 1 7⟩] }

/-- Fixture for the consistency claim: two active members with meals. -/
def c9mess : Mess :=
  { include_breakfast := true
    breakfast_weight := 50
    members := [⟨1, "alice", true⟩, ⟨2, "bob", true⟩, ⟨3, "dan", false⟩]
    meals := [⟨1, toOrdinal 2024 1 10, true, true, false, 0⟩,
              ⟨2, toOrdinal 2024 1 11, false, true, true, 25⟩,
              ⟨3, toOrdinal 2024 1 11, true, true, true, 0⟩]
    expenses := [⟨toOrdinal 2024 1 5, 10000⟩]
    deposits := []
    manager_assignments := [] }

/-- Fixture for the inactive-depositor claim: member 2 is inactive but
deposited 50.00 in range. -/
def c10mess : Mess :=
  { include_breakfast := true
    breakfast_weight := 50
    members := [⟨1, "alice", true⟩, ⟨2, "bob", false⟩]
    meals := [⟨1, toOrdinal 2024 1 10, false, true, false, 0⟩]
    expenses := []
    deposits := [⟨2, toOrdinal 2024 1 15, 5000⟩]
    manager_assignments := [] }

/-! ### Lemmas about the meal loop -/

theorem mealsFold_go_snd (bw : Int) (l : List Meal) :
    ∀ (f : Nat → Int) (t : Int),
      (l.foldl (mealsStep bw) (f, t)).2 = t + (l.map (mealUnits bw)).sum := by
  induction l with
  | nil => intro f t; simp
  | cons ml l ih =>
    intro f t
    simp only [List.foldl_cons, List.map_cons, List.sum_cons, mealsStep]
    rw [ih]
    ring

theorem mealsFold_snd (bw : Int) (l : List Meal) :
    (mealsFold bw l).2 = (l.map (mealUnits bw)).sum := by
  simpa using mealsFold_go_snd bw l (fun _ => 0) 0

theorem mealsFold_go_fst (bw : Int) (l : List Meal) :
    ∀ (f : Nat → Int) (t : Int) (x : Nat),
      (l.foldl (mealsStep bw) (f, t)).1 x =
        f x + ((l.filter fun ml => ml.member_id == x).map (mealUnits bw)).sum := by
  induction l with
  | nil => intro f t x; simp
  | cons ml l ih =>
    intro f t x
    simp only [List.foldl_cons, mealsStep]
    rw [ih]
    by_cases h : ml.member_id = x
    · subst h
      rw [Function.update_same]
      simp [List.filter_cons]
      ring
    · rw [Function.update_noteq (fun hx => h hx.symm)]
      simp [List.filter_cons, h]

theorem mealsPerMember_eq (mess : Mess) (year month : Nat) (x : Nat) :
    mealsPerMember mess year month x =
      (((mealEntries mess (monthStart year month) (monthEnd year month)).filter
          fun ml => ml.member_id == x).map (mealUnits (breakfastWeightUsed mess))).sum := by
  simpa using
    mealsFold_go_fst (breakfastWeightUsed mess)
      (mealEntries mess (monthStart year month) (monthEnd year month)) (fun _ => 0) 0 x

/-- Claim C2: the dashboard's total meal units is the sum, over exactly the
in-range meal records of active members, of
`(breakfast_weight if had_breakfast else 0) + (1 if had_lunch else 0) +
(1 if had_dinner else 0) + extra_meals`, where the breakfast weight is the
household's weight when include_breakfast is true and 0 otherwise; records
of inactive members contribute nothing. -/
theorem C2_theorem (mess : Mess) (year month : Nat) :
    (calculate_dashboard mess year month).summary.total_meals =
      ((mess.meals.filter fun ml =>
          inRange (monthStart year month) (monthEnd year month) ml.date &&
            (mess.members.filter Member.is_active).any fun mb => mb.id == ml.member_id).map
        fun ml =>
          (if ml.had_breakfast then
              (if mess.include_breakfast then mess.breakfast_weight else 0) else 0)
            + (if ml.had_lunch then 100 else 0) + (if ml.had_dinner then 100 else 0)
            + ml.extra_meals).sum := by
  show totalMealsAll mess year month = _
  rw [totalMealsAll, mealsFold_snd]
  rfl

/-- Claim C8: is_meal_manager_for_date is true exactly when some assignment
of that user and mess has an inclusive [start_date, end_date] interval
containing the target date; it is a pure boolean query. -/
theorem C8_theorem (assignments : List MealManagerAssignment)
    (user_id mess_id : Nat) (target_date : Int) :
    is_meal_manager_for_date assignments user_id mess_id target_date = true ↔
      ∃ a ∈ assignments, a.mess_id = mess_id ∧ a.manager_user_id = user_id ∧
        a.start_date ≤ target_date ∧ target_date ≤ a.end_date := by
  simp [is_meal_manager_for_date, List.any_eq_true, Bool.and_eq_true, beq_iff_eq,
    decide_eq_true_eq, and_assoc]

/-! ### Member rows -/

theorem status_classify (n : Int) :
    (((if n < 0 then "due" else if 0 < n then "advance" else "settled") = "due" ↔ n < 0) ∧
      ((if n < 0 then "due" else if 0 < n then "advance" else "settled") = "advance" ↔ 0 < n) ∧
      ((if n < 0 then "due" else if 0 < n then "advance" else "settled") = "settled" ↔ n = 0)) := by
  rcases lt_trichotomy n 0 with h | h | h
  · rw [if_pos h]
    have h1 : ¬ 0 < n := by omega
    have h2 : ¬ n = 0 := by omega
    simp [h, h1, h2]
  · subst h
    have h1 : ¬ (0:Int) < 0 := by omega
    rw [if_neg h1, if_neg h1]
    simp
  · have h0 : ¬ n < 0 := by omega
    rw [if_neg h0, if_pos h]
    have h2 : ¬ n = 0 := by omega
    simp [h, h0, h2]

/-- Claim C3: every member row has meal_cost = round(units * rate, 2),
net = deposited - meal_cost exactly (with deposits defaulting to 0 when the
member has none in range), and status due/advance/settled exactly by the
sign of net. -/
theorem C3_theorem (mess : Mess) (year month : Nat) :
    ∀ row ∈ (calculate_dashboard mess year month).members,
      row.meal_cost =
        roundHalfEvenDiv
          (row.meals * (calculate_dashboard mess year month).summary.meal_rate) 100 ∧
      row.net = row.deposited - row.meal_cost ∧
      row.deposited = depositsFor mess (monthStart year month) (monthEnd year month) row.id ∧
      ((mess.deposits.filter fun dp =>
          inRange (monthStart year month) (monthEnd year month) dp.date &&
            dp.member_id == row.id) = [] → row.deposited = 0) ∧
      (row.status = "due" ↔ row.net < 0) ∧
      (row.status = "advance" ↔ 0 < row.net) ∧
      (row.status = "settled" ↔ row.net = 0) := by
  intro row hrow
  have hrow' : row ∈ (activeMembers mess).map
      (memberRow mess (monthStart year month) (monthEnd year month)
        (mealsPerMember mess year month) (messMealRate mess year month)) := hrow
  obtain ⟨member, hmem, hr⟩ := List.mem_map.1 hrow'
  subst hr
  refine ⟨rfl, rfl, rfl, ?_, ?_, ?_, ?_⟩
  · intro h
    have h' : (mess.deposits.filter fun dp =>
        inRange (monthStart year month) (monthEnd year month) dp.date &&
          dp.member_id == member.id) = [] := h
    show ((mess.deposits.filter fun dp =>
        inRange (monthStart year month) (monthEnd year month) dp.date &&
          dp.member_id == member.id).map Deposit.amount).sum = 0
    rw [h']
    rfl
  · exact (status_classify ((memberRow mess (monthStart year month) (monthEnd year month)
      (mealsPerMember mess year month) (messMealRate mess year month) member).net)).1
  · exact (status_classify ((memberRow mess (monthStart year month) (monthEnd year month)
      (mealsPerMember mess year month) (messMealRate mess year month) member).net)).2.1
  · exact (status_classify ((memberRow mess (monthStart year month) (monthEnd year month)
      (mealsPerMember mess year month) (messMealRate mess year month) member).net)).2.2

/-- Witness for C3 at the fixture mess and its produced row. -/
theorem C3_witness :
    c3row.meal_cost =
      roundHalfEvenDiv
        (c3row.meals * (calculate_dashboard c3mess 2024 1).summary.meal_rate) 100 ∧
    c3row.net = c3row.deposited - c3row.meal_cost ∧
    c3row.deposited = depositsFor c3mess (monthStart 2024 1) (monthEnd 2024 1) c3row.id ∧
    ((c3mess.deposits.filter fun dp =>
        inRange (monthStart 2024 1) (monthEnd 2024 1) dp.date &&
          dp.member_id == c3row.id) = [] → c3row.deposited = 0) ∧
    (c3row.status = "due" ↔ c3row.net < 0) ∧
    (c3row.status = "advance" ↔ 0 < c3row.net) ∧
    (c3row.status = "settled" ↔ c3row.net = 0) :=
  C3_theorem c3mess 2024 1 c3row (by decide)

/-! ### Meal rate -/

theorem mealUnits_nonneg (bw : Int) (ml : Meal) (hw : 0 ≤ bw)
    (hx : 0 ≤ ml.extra_meals) : 0 ≤ mealUnits bw ml := by
  unfold mealUnits
  split_ifs <;> omega

theorem totalMealsAll_nonneg (mess : Mess) (year month : Nat)
    (hw : 0 ≤ mess.breakfast_weight) (hx : ∀ ml ∈ mess.meals, 0 ≤ ml.extra_meals) :
    0 ≤ totalMealsAll mess year month := by
  rw [totalMealsAll, mealsFold_snd]
  apply List.sum_nonneg
  intro x hxm
  obtain ⟨ml, hml, rfl⟩ := List.mem_map.1 hxm
  have hmem : ml ∈ mess.meals := List.mem_of_mem_filter hml
  apply mealUnits_nonneg
  · unfold breakfastWeightUsed
    split_ifs <;> omega
  · exact hx ml hmem

/-- Claim C4: the meal rate is the 2-decimal rounding of
total_expense / total_meal_units when the total is nonzero, and exactly 0
when the total is 0, whatever the expense; the guarded branch never divides
by zero. Non-negative stored quantities (the data-model invariant) make
"nonzero" coincide with the code's strict positivity test. -/
theorem C4_theorem (mess : Mess) (year month : Nat)
    (hw : 0 ≤ mess.breakfast_weight)
    (hx : ∀ ml ∈ mess.meals, 0 ≤ ml.extra_meals) :
    ((calculate_dashboard mess year month).summary.total_meals = 0 →
        (calculate_dashboard mess year month).summary.meal_rate = 0) ∧
    ((calculate_dashboard mess year month).summary.total_meals ≠ 0 →
        (calculate_dashboard mess year month).summary.meal_rate =
          roundHalfEvenDiv
            (100 * (calculate_dashboard mess year month).summary.total_expense)
            ((calculate_dashboard mess year month).summary.total_meals)) := by
  have hnn := totalMealsAll_nonneg mess year month hw hx
  constructor
  · intro h0
    have h0' : totalMealsAll mess year month = 0 := h0
    show messMealRate mess year month = 0
    rw [messMealRate, h0', mealRate]
    simp
  · intro hne
    have hne' : totalMealsAll mess year month ≠ 0 := hne
    have hpos : 0 < totalMealsAll mess year month := lt_of_le_of_ne hnn (Ne.symm hne')
    show messMealRate mess year month = _
    rw [messMealRate, mealRate, if_pos hpos]
    rfl

/-- Witness for C4: the fixture has 4.25 total units, so the rate is the
rounded quotient. -/
theorem C4_witness :
    (calculate_dashboard c4mess 2024 1).summary.meal_rate =
      roundHalfEvenDiv (100 * (calculate_dashboard c4mess 2024 1).summary.total_expense)
        ((calculate_dashboard c4mess 2024 1).summary.total_meals) :=
  (C4_theorem c4mess 2024 1 (by decide) (by decide)).2 (by decide)

/-! ### Mess balance -/

/-- Claim C5: the household balance is round(total_collected -
total_expense, 2) over every in-range record, is computed independently of
meal rate and member allocations, and can differ from the sum of the member
nets (it does on `c5mess`). -/
theorem C5_theorem :
    (∀ (mess : Mess) (year month : Nat),
        (calculate_dashboard mess year month).summary.mess_balance =
          ((mess.deposits.filter fun dp =>
              inRange (monthStart year month) (monthEnd year month) dp.date).map
            Deposit.amount).sum -
          ((mess.expenses.filter fun e =>
              inRange (monthStart year month) (monthEnd year month) e.date).map
            Expense.amount).sum) ∧
    (∀ (mess mess' : Mess) (year month : Nat),
        mess.expenses = mess'.expenses → mess.deposits = mess'.deposits →
        (calculate_dashboard mess year month).summary.mess_balance =
          (calculate_dashboard mess' year month).summary.mess_balance) ∧
    (calculate_dashboard c5mess 2024 1).summary.mess_balance ≠
      ((calculate_dashboard c5mess 2024 1).members.map MemberRow.net).sum := by
  refine ⟨fun mess year month => rfl, ?_, by decide⟩
  intro mess mess' year month hexp hdep
  show totalCollected mess (monthStart year month) (monthEnd year month)
      - totalExpense mess (monthStart year month) (monthEnd year month)
    = totalCollected mess' (monthStart year month) (monthEnd year month)
      - totalExpense mess' (monthStart year month) (monthEnd year month)
  simp only [totalCollected, totalExpense, hexp, hdep]

/-- Witness for C5: two messes sharing expense and deposit records have the
same balance although members, meals and breakfast settings differ. -/
theorem C5_witness :
    (calculate_dashboard c5mess 2024 1).summary.mess_balance =
      (calculate_dashboard c5messAlt 2024 1).summary.mess_balance :=
  C5_theorem.2.1 c5mess c5messAlt 2024 1 rfl rfl

/-! ### The §8 worked example -/

/-- Counterexample to C1 as stated: on the §8 example input the code yields
meal units 1.5 and meal rate 66.67 as claimed, but the member's meal cost is
100.00 (the tie 100.005 rounds half-to-even), not the claimed 100.01. -/
theorem C1_counterexample :
    (calculate_dashboard c1mess 2024 1).summary.total_meals = 150 ∧
    (calculate_dashboard c1mess 2024 1).summary.meal_rate = 6667 ∧
    (calculate_dashboard c1mess 2024 1).members.map MemberRow.meal_cost = [10000] ∧
    ¬((calculate_dashboard c1mess 2024 1).members.map MemberRow.meal_cost = [10001]) := by
  decide

/-- Claim C1 as amended: on the §8 example the member's meal units are 1.5,
the meal rate is 66.67, the meal cost is 100.00 (1.5 x 66.67 = 100.005
rounds half-to-even to 100.00), and the net is deposited - 100.00. -/
theorem C1_theorem (dep : Int) :
    (calculate_dashboard (c1messWith dep) 2024 1).summary.total_meals = 150 ∧
    (calculate_dashboard (c1messWith dep) 2024 1).summary.meal_rate = 6667 ∧
    (calculate_dashboard (c1messWith dep) 2024 1).members.map MemberRow.meal_cost = [10000] ∧
    (calculate_dashboard (c1messWith dep) 2024 1).members.map MemberRow.net
      = [dep - 10000] := by
  refine ⟨rfl, rfl, rfl, ?_⟩
  have h4 : (calculate_dashboard (c1messWith dep) 2024 1).members.map MemberRow.net
      = [[dep].sum - 10000] := rfl
  rw [h4]
  simp

/-! ### Partitioning the meal total over member ids -/

theorem sum_map_add (ids : List Nat) (f g : Nat → Int) :
    (ids.map fun x => f x + g x).sum = (ids.map f).sum + (ids.map g).sum := by
  induction ids with
  | nil => simp
  | cons x ids ih =>
    simp only [List.map_cons, List.sum_cons, ih]
    ring

theorem sum_map_ite_zero_of_not_mem (ids : List Nat) (k : Nat) (c : Int)
    (h : k ∉ ids) : (ids.map fun x => if k = x then c else 0).sum = 0 := by
  induction ids with
  | nil => simp
  | cons x ids ih =>
    simp only [List.map_cons, List.sum_cons]
    have hkx : k ≠ x := fun he => h (he ▸ List.mem_cons_self x ids)
    rw [if_neg hkx, ih (fun hm => h (List.mem_cons_of_mem x hm))]
    simp

theorem sum_map_ite_zero (ids : List Nat) (k : Nat) (c : Int)
    (hnd : ids.Nodup) (hin : k ∈ ids) :
    (ids.map fun x => if k = x then c else 0).sum = c := by
  induction ids with
  | nil => cases hin
  | cons x ids ih =>
    simp only [List.map_cons, List.sum_cons]
    rcases List.mem_cons.1 hin with he | hm
    · subst he
      rw [if_pos rfl, sum_map_ite_zero_of_not_mem ids k c (List.nodup_cons.1 hnd).1]
      simp
    · have hkx : k ≠ x := by
        rintro rfl
        exact (List.nodup_cons.1 hnd).1 hm
      rw [if_neg hkx, ih (List.nodup_cons.1 hnd).2 hm]
      simp

theorem sum_filter_partition (ids : List Nat) (l : List Meal) (u : Meal → Int)
    (hnd : ids.Nodup) (hk : ∀ e ∈ l, e.member_id ∈ ids) :
    (ids.map fun x => ((l.filter fun e => e.member_id == x).map u).sum).sum
      = (l.map u).sum := by
  induction l with
  | nil => simp
  | cons e l ih =>
    have hstep : ∀ x : Nat,
        (((e :: l).filter fun a => a.member_id == x).map u).sum
          = (if e.member_id = x then u e else 0)
            + ((l.filter fun a => a.member_id == x).map u).sum := by
      intro x
      by_cases h : e.member_id = x
      · simp [List.filter_cons, h]
      · simp [List.filter_cons, h]
    simp only [hstep]
    rw [sum_map_add, sum_map_ite_zero ids e.member_id (u e) hnd (hk e (List.mem_cons_self e l)),
      ih (fun a ha => hk a (List.mem_cons_of_mem e ha))]
    simp

/-- Claim C9: the dashboard output is internally consistent —
summary.total_meals is the sum of the rows' meal counts and
summary.active_members is the number of rows. Distinct member ids (the
primary-key invariant) are assumed. -/
theorem C9_theorem (mess : Mess) (year month : Nat)
    (hids : ((mess.members.filter Member.is_active).map Member.id).Nodup) :
    (calculate_dashboard mess year month).summary.total_meals =
      ((calculate_dashboard mess year month).members.map MemberRow.meals).sum ∧
    (calculate_dashboard mess year month).summary.active_members =
      (calculate_dashboard mess year month).members.length := by
  constructor
  · show totalMealsAll mess year month = ((memberRows mess year month).map MemberRow.meals).sum
    have h1 : (memberRows mess year month).map MemberRow.meals
        = (activeMembers mess).map (fun mb => mealsPerMember mess year month mb.id) := by
      rw [memberRows, List.map_map]
      rfl
    have h2 : (activeMembers mess).map (fun mb => mealsPerMember mess year month mb.id)
        = ((activeMembers mess).map Member.id).map
            (fun x => (((mealEntries mess (monthStart year month) (monthEnd year month)).filter
                fun ml => ml.member_id == x).map
              (mealUnits (breakfastWeightUsed mess))).sum) := by
      rw [List.map_map]
      apply List.map_congr_left
      intro mb _
      exact mealsPerMember_eq mess year month mb.id
    have hk : ∀ e ∈ mealEntries mess (monthStart year month) (monthEnd year month),
        e.member_id ∈ (activeMembers mess).map Member.id := by
      intro e he
      have he' : e ∈ mess.meals.filter (fun ml =>
          inRange (monthStart year month) (monthEnd year month) ml.date &&
            (activeMembers mess).any fun mb => mb.id == ml.member_id) := he
      have hcond := (List.mem_filter.1 he').2
      rw [Bool.and_eq_true] at hcond
      obtain ⟨-, hany⟩ := hcond
      rw [List.any_eq_true] at hany
      obtain ⟨mb, hmb, hid⟩ := hany
      rw [beq_iff_eq] at hid
      exact hid ▸ List.mem_map_of_mem Member.id hmb
    rw [h1, h2, totalMealsAll, mealsFold_snd]
    exact (sum_filter_partition ((activeMembers mess).map Member.id)
      (mealEntries mess (monthStart year month) (monthEnd year month))
      (mealUnits (breakfastWeightUsed mess)) hids hk).symm
  · show ((activeMembers mess).length) = (memberRows mess year month).length
    rw [memberRows, List.length_map]

/-- Witness for C9 at a fixture with three members, one inactive. -/
theorem C9_witness :
    (calculate_dashboard c9mess 2024 1).summary.total_meals =
      ((calculate_dashboard c9mess 2024 1).members.map MemberRow.meals).sum ∧
    (calculate_dashboard c9mess 2024 1).summary.active_members =
      (calculate_dashboard c9mess 2024 1).members.length :=
  C9_theorem c9mess 2024 1 (by decide)

/-- Claim C10: total_collected counts every in-range deposit, including
those of inactive members; rows exist exactly for active members, so on
`c10mess` the rows' deposited column sums strictly below total_collected. -/
theorem C10_theorem :
    (∀ (mess : Mess) (year month : Nat),
        (calculate_dashboard mess year month).summary.total_collected =
          ((mess.deposits.filter fun dp =>
              inRange (monthStart year month) (monthEnd year month) dp.date).map
            Deposit.amount).sum) ∧
    (∀ (mess : Mess) (year month : Nat),
        (calculate_dashboard mess year month).members.map MemberRow.id =
          (mess.members.filter Member.is_active).map Member.id) ∧
    ((calculate_dashboard c10mess 2024 1).members.map MemberRow.deposited).sum <
      (calculate_dashboard c10mess 2024 1).summary.total_collected := by
  refine ⟨fun mess year month => rfl, ?_, by decide⟩
  intro mess year month
  show (memberRows mess year month).map MemberRow.id = (activeMembers mess).map Member.id
  rw [memberRows, List.map_map]
  rfl

/-! ### Manager statistics: single-accumulator facts -/

theorem updStat_name (s : ManagerStat) (a : MealManagerAssignment) :
    (updStat s a).name = s.name := by
  unfold updStat
  split_ifs <;> rfl

theorem updStat_total_days (s : ManagerStat) (a : MealManagerAssignment) :
    (updStat s a).total_days = s.total_days + a.total_days := by
  unfold updStat
  split_ifs <;> rfl

theorem updStat_count (s : ManagerStat) (a : MealManagerAssignment) :
    (updStat s a).assignment_count = s.assignment_count + 1 := by
  unfold updStat
  split_ifs <;> rfl

theorem updStat_last (s : ManagerStat) (a : MealManagerAssignment) :
    ((updStat s a).last_start, (updStat s a).last_end) =
      if s.last_start < a.start_date then (a.start_date, a.end_date)
      else (s.last_start, s.last_end) := by
  unfold updStat
  split_ifs <;> rfl

theorem updStat_last_start (s : ManagerStat) (a : MealManagerAssignment) :
    (updStat s a).last_start = max s.last_start a.start_date := by
  unfold updStat
  split_ifs with h
  · exact (max_eq_right h.le).symm
  · exact (max_eq_left (not_lt.1 h)).symm

theorem updFold_name (l : List MealManagerAssignment) :
    ∀ s : ManagerStat, (l.foldl updStat s).name = s.name := by
  induction l with
  | nil => intro s; rfl
  | cons a l ih =>
    intro s
    rw [List.foldl_cons, ih, updStat_name]

theorem updFold_total_days (l : List MealManagerAssignment) :
    ∀ s : ManagerStat,
      (l.foldl updStat s).total_days
        = s.total_days + (l.map MealManagerAssignment.total_days).sum := by
  induction l with
  | nil => intro s; simp
  | cons a l ih =>
    intro s
    rw [List.foldl_cons, ih, updStat_total_days]
    simp only [List.map_cons, List.sum_cons]
    ring

theorem updFold_count (l : List MealManagerAssignment) :
    ∀ s : ManagerStat,
      (l.foldl updStat s).assignment_count = s.assignment_count + l.length := by
  induction l with
  | nil => intro s; simp
  | cons a l ih =>
    intro s
    rw [List.foldl_cons, ih, updStat_count]
    simp only [List.length_cons]
    omega

theorem updFold_last (l : List MealManagerAssignment) :
    ∀ s : ManagerStat,
      ((l.foldl updStat s).last_start, (l.foldl updStat s).last_end)
        = lastPeriodSpec (s.last_start, s.last_end) l := by
  induction l with
  | nil => intro s; rfl
  | cons a l ih =>
    intro s
    rw [List.foldl_cons, ih, updStat_last]
    rfl

theorem updFold_last_start (l : List MealManagerAssignment) :
    ∀ s : ManagerStat,
      (l.foldl updStat s).last_start
        = l.foldl (fun b a => max b a.start_date) s.last_start := by
  induction l with
  | nil => intro s; rfl
  | cons a l ih =>
    intro s
    rw [List.foldl_cons, ih, updStat_last_start, List.foldl_cons]

/-! ### Manager statistics: the grouped dict fold -/

theorem findStat_applyAt_self (u : Nat) (f : ManagerStat → ManagerStat) :
    ∀ l : List (Nat × ManagerStat),
      findStat u (applyAt u f l) = (findStat u l).map f := by
  intro l
  induction l with
  | nil => rfl
  | cons p l ih =>
    obtain ⟨k, v⟩ := p
    by_cases h : k = u
    · subst h
      simp [applyAt, findStat]
    · simp [applyAt, findStat, h, ih]

theorem findStat_applyAt_ne (u k : Nat) (hk : k ≠ u) (f : ManagerStat → ManagerStat) :
    ∀ l : List (Nat × ManagerStat),
      findStat u (applyAt k f l) = findStat u l := by
  intro l
  induction l with
  | nil => rfl
  | cons p l ih =>
    obtain ⟨k', v⟩ := p
    by_cases h : k' = k
    · subst h
      simp [applyAt, findStat, hk]
    · by_cases h2 : k' = u <;> simp [applyAt, findStat, h, h2, ih, Ne.symm hk]

theorem findStat_append_some {u : Nat} {l : List (Nat × ManagerStat)} {s : ManagerStat}
    (h : findStat u l = some s) (l' : List (Nat × ManagerStat)) :
    findStat u (l ++ l') = some s := by
  induction l with
  | nil => cases h
  | cons p l ih =>
    obtain ⟨k, v⟩ := p
    by_cases hk : k = u
    · simp [findStat, hk] at h ⊢
      exact h
    · simp [findStat, hk] at h ⊢
      exact ih h

theorem findStat_append_none {u : Nat} {l : List (Nat × ManagerStat)}
    (h : findStat u l = none) (l' : List (Nat × ManagerStat)) :
    findStat u (l ++ l') = findStat u l' := by
  induction l with
  | nil => rfl
  | cons p l ih =>
    obtain ⟨k, v⟩ := p
    by_cases hk : k = u
    · simp [findStat, hk] at h
    · simp [findStat, hk] at h ⊢
      exact ih h

theorem any_key_eq_isSome (u : Nat) :
    ∀ l : List (Nat × ManagerStat),
      (l.any fun p => p.1 == u) = (findStat u l).isSome := by
  intro l
  induction l with
  | nil => rfl
  | cons p l ih =>
    obtain ⟨k, v⟩ := p
    by_cases h : k = u <;> simp [findStat, h, ih]

theorem findStat_mem_snd :
    ∀ (l : List (Nat × ManagerStat)) (u : Nat) (s : ManagerStat),
      findStat u l = some s → s ∈ l.map Prod.snd := by
  intro l
  induction l with
  | nil => intro u s h; cases h
  | cons p l ih =>
    intro u s h
    obtain ⟨k, v⟩ := p
    by_cases hk : k = u
    · simp [findStat, hk] at h
      subst h
      exact List.mem_cons_self _ _
    · simp [findStat, hk] at h
      exact List.mem_cons_of_mem _ (ih u s h)

theorem mgrFold_some (l : List MealManagerAssignment) :
    ∀ (acc : List (Nat × ManagerStat)) (u : Nat) (s : ManagerStat),
      findStat u acc = some s →
      findStat u (l.foldl mgrStep acc)
        = some ((l.filter fun a => a.manager_user_id == u).foldl updStat s) := by
  induction l with
  | nil => intro acc u s h; simpa using h
  | cons a l ih =>
    intro acc u s h
    rw [List.foldl_cons]
    by_cases hu : a.manager_user_id = u
    · have hany : (acc.any fun p => p.1 == a.manager_user_id) = true := by
        rw [hu, any_key_eq_isSome, h]
        rfl
      have hstep : mgrStep acc a = applyAt a.manager_user_id (fun t => updStat t a) acc := by
        simp [mgrStep, hany]
      have hfind : findStat u (applyAt a.manager_user_id (fun t => updStat t a) acc)
          = some (updStat s a) := by
        rw [hu, findStat_applyAt_self, h]
        rfl
      rw [hstep, ih _ u (updStat s a) hfind]
      have hfilter : ((a :: l).filter fun x => x.manager_user_id == u)
          = a :: (l.filter fun x => x.manager_user_id == u) := by
        simp [List.filter_cons, hu]
      rw [hfilter, List.foldl_cons]
    · have hfilter : ((a :: l).filter fun x => x.manager_user_id == u)
          = l.filter fun x => x.manager_user_id == u := by
        simp [List.filter_cons, hu]
      rw [hfilter]
      by_cases hc : (acc.any fun p => p.1 == a.manager_user_id) = true
      · have hstep : mgrStep acc a
            = applyAt a.manager_user_id (fun t => updStat t a) acc := by
          simp [mgrStep, hc]
        rw [hstep]
        refine ih _ u s ?_
        rw [findStat_applyAt_ne u a.manager_user_id hu _ acc]
        exact h
      · have hstep : mgrStep acc a
            = acc ++ [(a.manager_user_id, updStat (initStat a) a)] := by
          simp [mgrStep, hc]
        rw [hstep]
        exact ih _ u s (findStat_append_some h _)

theorem mgrFold_none (l : List MealManagerAssignment) :
    ∀ (acc : List (Nat × ManagerStat)) (u : Nat),
      findStat u acc = none →
      findStat u (l.foldl mgrStep acc)
        = match l.filter fun a => a.manager_user_id == u with
          | [] => none
          | a :: rest => some (rest.foldl updStat (updStat (initStat a) a)) := by
  induction l with
  | nil => intro acc u h; simpa using h
  | cons a l ih =>
    intro acc u h
    rw [List.foldl_cons]
    by_cases hu : a.manager_user_id = u
    · have hany : (acc.any fun p => p.1 == a.manager_user_id) = false := by
        rw [hu, any_key_eq_isSome, h]
        rfl
      have hstep : mgrStep acc a
          = acc ++ [(a.manager_user_id, updStat (initStat a) a)] := by
        simp [mgrStep, hany]
      have hfind : findStat u (acc ++ [(a.manager_user_id, updStat (initStat a) a)])
          = some (updStat (initStat a) a) := by
        rw [findStat_append_none h]
        simp [findStat, hu]
      rw [hstep, mgrFold_some l _ u _ hfind]
      simp [List.filter_cons, hu]
    · have hfilter : ((a :: l).filter fun x => x.manager_user_id == u)
          = l.filter fun x => x.manager_user_id == u := by
        simp [List.filter_cons, hu]
      rw [hfilter]
      by_cases hc : (acc.any fun p => p.1 == a.manager_user_id) = true
      · have hstep : mgrStep acc a
            = applyAt a.manager_user_id (fun t => updStat t a) acc := by
          simp [mgrStep, hc]
        rw [hstep]
        refine ih _ u ?_
        rw [findStat_applyAt_ne u a.manager_user_id hu _ acc]
        exact h
      · have hstep : mgrStep acc a
            = acc ++ [(a.manager_user_id, updStat (initStat a) a)] := by
          simp [mgrStep, hc]
        rw [hstep]
        refine ih _ u ?_
        rw [findStat_append_none h]
        simp [findStat, hu]

/-- Claim C6: for every user with assignments, the manager statistics
contain a row whose total_days is the sum of (end_date - start_date).days + 1
over the user's assignments, whose assignment_count is their number, and
whose last period is tracked by replacing only on a strictly greater
start_date (so last_start is the maximum start_date, and ties keep the
earliest-encountered record). -/
theorem C6_theorem (mess : Mess) (year month : Nat) (u : Nat)
    (a0 : MealManagerAssignment) (rest : List MealManagerAssignment)
    (hf : (mess.manager_assignments.filter fun a => a.manager_user_id == u)
      = a0 :: rest) :
    ∃ s ∈ (calculate_dashboard mess year month).manager_stats,
      s.total_days = ((a0 :: rest).map fun a => a.end_date - a.start_date + 1).sum ∧
      s.assignment_count = (a0 :: rest).length ∧
      (s.last_start, s.last_end) = lastPeriodSpec (a0.start_date, a0.end_date) rest ∧
      s.last_start = rest.foldl (fun b a => max b a.start_date) a0.start_date := by
  have hm := mgrFold_none mess.manager_assignments [] u rfl
  rw [hf] at hm
  refine ⟨rest.foldl updStat (updStat (initStat a0) a0), ?_, ?_, ?_, ?_, ?_⟩
  · show _ ∈ (mess.manager_assignments.foldl mgrStep []).map Prod.snd
    exact findStat_mem_snd _ u _ hm
  · rw [updFold_total_days, updStat_total_days]
    have h0 : (initStat a0).total_days = 0 := rfl
    rw [h0]
    have hmap : rest.map MealManagerAssignment.total_days
        = rest.map (fun a => a.end_date - a.start_date + 1) := rfl
    rw [hmap]
    simp only [List.map_cons, List.sum_cons, MealManagerAssignment.total_days]
    omega
  · rw [updFold_count, updStat_count]
    have h0 : (initStat a0).assignment_count = 0 := rfl
    rw [h0]
    simp only [List.length_cons]
    omega
  · rw [updFold_last, updStat_last]
    simp [initStat]
  · rw [updFold_last_start, updStat_last_start]
    simp [initStat]

/-- Witness for C6 at the fixture mess: user 5's two assignments. -/
theorem C6_witness :
    ∃ s ∈ (calculate_dashboard c6mess 2024 1).manager_stats,
      s.total_days = ((c6a0 :: c6rest).map fun a => a.end_date - a.start_date + 1).sum ∧
      s.assignment_count = (c6a0 :: c6rest).length ∧
      (s.last_start, s.last_end) = lastPeriodSpec (c6a0.start_date, c6a0.end_date) c6rest ∧
      s.last_start = c6rest.foldl (fun b a => max b a.start_date) c6a0.start_date :=
  C6_theorem c6mess 2024 1 5 c6a0 c6rest (by decide)

/-- Counterexample to C7 as stated: in `c7mess`, user 7 has an assignment
whose linked member is "Alice", yet the displayed name is the raw username
"bob", because the name is taken from the first-encountered assignment of
the group only. -/
theorem C7_counterexample :
    (calculate_dashboard c7mess 2024 1).manager_stats.map ManagerStat.name = ["bob"] ∧
    (∃ a ∈ c7mess.manager_assignments, a.manager_member_name = some "Alice") ∧
    ("bob" : String) ≠ "Alice" := by
  decide

/-- Claim C7 as amended: the displayed name of a manager-statistics group is
taken from the group's first-encountered assignment — the linked member's
name when that assignment has one, the raw username otherwise. -/
theorem C7_theorem (mess : Mess) (year month : Nat) (u : Nat)
    (a0 : MealManagerAssignment) (rest : List MealManagerAssignment)
    (hf : (mess.manager_assignments.filter fun a => a.manager_user_id == u)
      = a0 :: rest) :
    ∃ s ∈ (calculate_dashboard mess year month).manager_stats,
      s.name = match a0.manager_member_name with
               | some n => n
               | none => a0.manager_username := by
  have hm := mgrFold_none mess.manager_assignments [] u rfl
  rw [hf] at hm
  refine ⟨rest.foldl updStat (updStat (initStat a0) a0), ?_, ?_⟩
  · show _ ∈ (mess.manager_assignments.foldl mgrStep []).map Prod.snd
    exact findStat_mem_snd _ u _ hm
  · rw [updFold_name, updStat_name]
    rfl

/-- Witness for the amended C7 at the fixture mess: user 7's group displays
"bob", the username of its first-encountered assignment. -/
theorem C7_witness :
    ∃ s ∈ (calculate_dashboard c7mess 2024 1).manager_stats,
      s.name = match c7a0.manager_member_name with
               | some n => n
               | none => c7a0.manager_username :=
  C7_theorem c7mess 2024 1 7 c7a0 c7rest (by decide)

end MealManagement
